import Mathlib

/-!
Shallow embedding of `pci_types`' `src/register.rs`.

Machine integers (`u8`, `u16`, `u32`) are modelled as `Nat`; the bit-field
primitives from the `bit_field` crate carry an explicit width `w` where the
Rust operation depends on the integer width (complement masks).  Fallible
conversion (`TryFrom`) is modelled with `Except Unit`.
-/

/-- `v.get_bit i` from the `bit_field` crate: bit `i` of `v` as a `Bool`. -/
def get_bit (v i : Nat) : Bool := v.testBit i

/-- `v.get_bits a..a+len` from the `bit_field` crate: `len` bits of `v`
starting at position `a`, as an integer. -/
def get_bits (v a len : Nat) : Nat := (v >>> a) % 2 ^ len

/-- `v.set_bits` on a `w`-bit integer: replace the `len` bits starting at
position `a` by `val` (the crate asserts `val < 2 ^ len`; all call sites in
`register.rs` pass a `get_bits` result, which satisfies this). -/
def set_bits (w v a len val : Nat) : Nat :=
  (v &&& ((2 ^ w - 1) ^^^ ((2 ^ len - 1) <<< a))) ||| (val <<< a)

/-- `v.set_bit i b` on a `w`-bit integer: set bit `i` to `b`. -/
def set_bit (w v i : Nat) (b : Bool) : Nat :=
  (v &&& ((2 ^ w - 1) ^^^ (1 <<< i))) ||| ((if b then 1 else 0) <<< i)

/-- `enum DevselTiming { Fast = 0x0, Medium = 0x1, Slow = 0x2 }`. -/
inductive DevselTiming where
  | Fast
  | Medium
  | Slow
deriving DecidableEq, Repr

/-- `impl TryFrom<u8> for DevselTiming` (`register.rs:17-24`). -/
def DevselTiming.try_from (value : Nat) : Except Unit DevselTiming :=
  match value with
  | 0x0 => .ok .Fast
  | 0x1 => .ok .Medium
  | 0x2 => .ok .Slow
  | _ => .error ()

/-- `pub struct StatusRegister(u16)`. -/
structure StatusRegister where
  raw : Nat
deriving DecidableEq

def StatusRegister.new (value : Nat) : StatusRegister := ⟨value⟩

def StatusRegister.parity_error_detected (s : StatusRegister) : Bool :=
  get_bit s.raw 15

def StatusRegister.signalled_system_error (s : StatusRegister) : Bool :=
  get_bit s.raw 14

def StatusRegister.received_master_abort (s : StatusRegister) : Bool :=
  get_bit s.raw 13

def StatusRegister.received_target_abort (s : StatusRegister) : Bool :=
  get_bit s.raw 12

def StatusRegister.signalled_target_abort (s : StatusRegister) : Bool :=
  get_bit s.raw 11

/-- `register.rs:65-68`: `get_bits(9..11)` reads the 2 bits at positions 9
and 10, then feeds them to `DevselTiming::try_from`. -/
def StatusRegister.devsel_timing (s : StatusRegister) : Except Unit DevselTiming :=
  DevselTiming.try_from (get_bits s.raw 9 2)

def StatusRegister.master_data_parity_error (s : StatusRegister) : Bool :=
  get_bit s.raw 8

def StatusRegister.fast_back_to_back_capable (s : StatusRegister) : Bool :=
  get_bit s.raw 7

def StatusRegister.capable_66mhz (s : StatusRegister) : Bool :=
  get_bit s.raw 5

def StatusRegister.has_capability_list (s : StatusRegister) : Bool :=
  get_bit s.raw 4

def StatusRegister.interrupt_status (s : StatusRegister) : Bool :=
  get_bit s.raw 3

/-- `pub struct CommandRegister(u16)`. -/
structure CommandRegister where
  raw : Nat
deriving DecidableEq

def CommandRegister.from_u16 (data : Nat) : CommandRegister := ⟨data⟩

/-- `register.rs:138-141`: mutate a `u32` image, writing bits 8..=10 and
then bits 0..=6 from the register's value. -/
def CommandRegister.write_info (c : CommandRegister) (data : Nat) : Nat :=
  let d1 := set_bits 32 data 8 3 (get_bits c.raw 8 3)
  set_bits 32 d1 0 7 (get_bits c.raw 0 7)

def CommandRegister.interrupts_disabled (c : CommandRegister) : Bool :=
  get_bit c.raw 10

def CommandRegister.fast_back_to_back_enabled (c : CommandRegister) : Bool :=
  get_bit c.raw 9

def CommandRegister.serr_enabled (c : CommandRegister) : Bool :=
  get_bit c.raw 8

def CommandRegister.parity_error_response (c : CommandRegister) : Bool :=
  get_bit c.raw 6

def CommandRegister.vga_palette_snoop (c : CommandRegister) : Bool :=
  get_bit c.raw 5

def CommandRegister.memory_write_and_invalidate_enabled (c : CommandRegister) : Bool :=
  get_bit c.raw 4

def CommandRegister.monitor_special_cycles (c : CommandRegister) : Bool :=
  get_bit c.raw 3

def CommandRegister.bus_mastering_enabled (c : CommandRegister) : Bool :=
  get_bit c.raw 2

def CommandRegister.memory_space_access_enabled (c : CommandRegister) : Bool :=
  get_bit c.raw 1

def CommandRegister.io_space_access_enabled (c : CommandRegister) : Bool :=
  get_bit c.raw 0

/-- `pub struct CommandRegisterBuilder(u16)`; `#[derive(Default)]` makes the
default accumulator `0`. -/
structure CommandRegisterBuilder where
  raw : Nat
deriving DecidableEq

def CommandRegisterBuilder.default : CommandRegisterBuilder := ⟨0⟩

/-- `register.rs:143-145`: seed the builder with the register's raw value. -/
def CommandRegister.builder (c : CommandRegister) : CommandRegisterBuilder := ⟨c.raw⟩

def CommandRegisterBuilder.interrupt_disable
    (b : CommandRegisterBuilder) (disable : Bool) : CommandRegisterBuilder :=
  ⟨set_bit 16 b.raw 10 disable⟩

def CommandRegisterBuilder.fast_back_to_back_enable
    (b : CommandRegisterBuilder) (enable : Bool) : CommandRegisterBuilder :=
  ⟨set_bit 16 b.raw 9 enable⟩

def CommandRegisterBuilder.serr_enable
    (b : CommandRegisterBuilder) (enable : Bool) : CommandRegisterBuilder :=
  ⟨set_bit 16 b.raw 8 enable⟩

def CommandRegisterBuilder.parity_error_response
    (b : CommandRegisterBuilder) (response : Bool) : CommandRegisterBuilder :=
  ⟨set_bit 16 b.raw 6 response⟩

def CommandRegisterBuilder.vga_palette_snoop
    (b : CommandRegisterBuilder) (snoop : Bool) : CommandRegisterBuilder :=
  ⟨set_bit 16 b.raw 5 snoop⟩

def CommandRegisterBuilder.memory_write_and_invalidate_enable
    (b : CommandRegisterBuilder) (enable : Bool) : CommandRegisterBuilder :=
  ⟨set_bit 16 b.raw 4 enable⟩

def CommandRegisterBuilder.monitor_special_cycles
    (b : CommandRegisterBuilder) (cycles : Bool) : CommandRegisterBuilder :=
  ⟨set_bit 16 b.raw 3 cycles⟩

def CommandRegisterBuilder.bus_mastering
    (b : CommandRegisterBuilder) (mastering : Bool) : CommandRegisterBuilder :=
  ⟨set_bit 16 b.raw 2 mastering⟩

def CommandRegisterBuilder.memory_space_access
    (b : CommandRegisterBuilder) (access : Bool) : CommandRegisterBuilder :=
  ⟨set_bit 16 b.raw 1 access⟩

def CommandRegisterBuilder.io_space_access
    (b : CommandRegisterBuilder) (access : Bool) : CommandRegisterBuilder :=
  ⟨set_bit 16 b.raw 0 access⟩

def CommandRegisterBuilder.build (b : CommandRegisterBuilder) : CommandRegister :=
  ⟨b.raw⟩

/-! Enumerations of the single-bit fields, used to state claims uniformly
over all accessors / setters. -/

/-- The ten single-bit `StatusRegister` accessors. -/
inductive StatusField where
  | parityErrorDetected
  | signalledSystemError
  | receivedMasterAbort
  | receivedTargetAbort
  | signalledTargetAbort
  | masterDataParityError
  | fastBackToBackCapable
  | capable66mhz
  | hasCapabilityList
  | interruptStatus
deriving DecidableEq, Repr

/-- The bit position documented for each single-bit status accessor. -/
def statusBitPos : StatusField → Nat
  | .parityErrorDetected => 15
  | .signalledSystemError => 14
  | .receivedMasterAbort => 13
  | .receivedTargetAbort => 12
  | .signalledTargetAbort => 11
  | .masterDataParityError => 8
  | .fastBackToBackCapable => 7
  | .capable66mhz => 5
  | .hasCapabilityList => 4
  | .interruptStatus => 3

/-- Dispatch to the actual `StatusRegister` accessor for a field. -/
def readStatus (f : StatusField) (s : StatusRegister) : Bool :=
  match f with
  | .parityErrorDetected => s.parity_error_detected
  | .signalledSystemError => s.signalled_system_error
  | .receivedMasterAbort => s.received_master_abort
  | .receivedTargetAbort => s.received_target_abort
  | .signalledTargetAbort => s.signalled_target_abort
  | .masterDataParityError => s.master_data_parity_error
  | .fastBackToBackCapable => s.fast_back_to_back_capable
  | .capable66mhz => s.capable_66mhz
  | .hasCapabilityList => s.has_capability_list
  | .interruptStatus => s.interrupt_status

/-- The ten `CommandRegister` fields (each has a setter and an accessor). -/
inductive CmdField where
  | interruptDisable
  | fastBackToBack
  | serr
  | parityErrorResponse
  | vgaPaletteSnoop
  | memoryWriteInvalidate
  | monitorSpecialCycles
  | busMastering
  | memorySpaceAccess
  | ioSpaceAccess
deriving DecidableEq, Repr

/-- The bit position of each command field. -/
def cmdBitPos : CmdField → Nat
  | .interruptDisable => 10
  | .fastBackToBack => 9
  | .serr => 8
  | .parityErrorResponse => 6
  | .vgaPaletteSnoop => 5
  | .memoryWriteInvalidate => 4
  | .monitorSpecialCycles => 3
  | .busMastering => 2
  | .memorySpaceAccess => 1
  | .ioSpaceAccess => 0

/-- Dispatch to the actual `CommandRegister` accessor for a field. -/
def readCmd (f : CmdField) (c : CommandRegister) : Bool :=
  match f with
  | .interruptDisable => c.interrupts_disabled
  | .fastBackToBack => c.fast_back_to_back_enabled
  | .serr => c.serr_enabled
  | .parityErrorResponse => c.parity_error_response
  | .vgaPaletteSnoop => c.vga_palette_snoop
  | .memoryWriteInvalidate => c.memory_write_and_invalidate_enabled
  | .monitorSpecialCycles => c.monitor_special_cycles
  | .busMastering => c.bus_mastering_enabled
  | .memorySpaceAccess => c.memory_space_access_enabled
  | .ioSpaceAccess => c.io_space_access_enabled

/-- Dispatch to the actual `CommandRegisterBuilder` setter for a field. -/
def applySetter (b : CommandRegisterBuilder) (p : CmdField × Bool) :
    CommandRegisterBuilder :=
  match p.1 with
  | .interruptDisable => b.interrupt_disable p.2
  | .fastBackToBack => b.fast_back_to_back_enable p.2
  | .serr => b.serr_enable p.2
  | .parityErrorResponse => b.parity_error_response p.2
  | .vgaPaletteSnoop => b.vga_palette_snoop p.2
  | .memoryWriteInvalidate => b.memory_write_and_invalidate_enable p.2
  | .monitorSpecialCycles => b.monitor_special_cycles p.2
  | .busMastering => b.bus_mastering p.2
  | .memorySpaceAccess => b.memory_space_access p.2
  | .ioSpaceAccess => b.io_space_access p.2

/-- Run a sequence of setter calls on a builder, left to right. -/
def runSetters (b : CommandRegisterBuilder) (L : List (CmdField × Bool)) :
    CommandRegisterBuilder :=
  L.foldl applySetter b

/-- The value passed by the last setter call for field `f` in `L`, if any. -/
def lastSet (f : CmdField) : List (CmdField × Bool) → Option Bool
  | [] => none
  | p :: L =>
    match lastSet f L with
    | some v => some v
    | none => if p.1 = f then some p.2 else none

/-! Bit-level characterizations of the primitives. -/

theorem get_bits_testBit (v a len j : Nat) :
    (get_bits v a len).testBit j = (decide (j < len) && v.testBit (a + j)) := by
  unfold get_bits
  rw [Nat.testBit_mod_two_pow, Nat.testBit_shiftRight]

theorem get_bits_lt (v a len : Nat) : get_bits v a len < 2 ^ len :=
  Nat.mod_lt _ (Nat.pow_pos (by norm_num))

theorem set_bits_testBit (w v a len val j : Nat) (hw : a + len ≤ w)
    (hval : val < 2 ^ len) :
    (set_bits w v a len val).testBit j =
      if a ≤ j ∧ j < a + len then val.testBit (j - a)
      else (decide (j < w) && v.testBit j) := by
  have hvb : ∀ k, len ≤ k → val.testBit k = false := fun k hk =>
    Nat.testBit_lt_two_pow (lt_of_lt_of_le hval (Nat.pow_le_pow_right (by norm_num) hk))
  unfold set_bits
  simp only [Nat.testBit_lor, Nat.testBit_land, Nat.testBit_xor,
    Nat.testBit_shiftLeft, Nat.testBit_two_pow_sub_one]
  rcases Nat.lt_or_ge j a with hja | hja
  · have h1 : ¬(a ≤ j ∧ j < a + len) := by omega
    have c1 : decide (j ≥ a) = false := by simp; omega
    have c2 : decide (j < w) = true := by simp; omega
    rw [if_neg h1, c1, c2]
    simp [Bool.and_comm]
  · rcases Nat.lt_or_ge j (a + len) with hjl | hjl
    · have h1 : a ≤ j ∧ j < a + len := ⟨hja, hjl⟩
      have c1 : decide (j ≥ a) = true := by simp; omega
      have c2 : decide (j - a < len) = true := by simp; omega
      have c3 : decide (j < w) = true := by simp; omega
      rw [if_pos h1, c1, c2, c3]
      simp
    · have h1 : ¬(a ≤ j ∧ j < a + len) := by omega
      have c1 : decide (j - a < len) = false := by simp; omega
      have c2 : val.testBit (j - a) = false := hvb _ (by omega)
      rw [if_neg h1, c1, c2]
      simp [Bool.and_comm]

theorem set_bit_eq_set_bits (w v i : Nat) (b : Bool) :
    set_bit w v i b = set_bits w v i 1 (if b then 1 else 0) := rfl

theorem set_bit_testBit (w v i j : Nat) (b : Bool) (hi : i < w) :
    (set_bit w v i b).testBit j =
      if j = i then b else (decide (j < w) && v.testBit j) := by
  rw [set_bit_eq_set_bits,
    set_bits_testBit w v i 1 _ j (by omega) (by cases b <;> norm_num)]
  by_cases h : j = i
  · subst h
    rw [if_pos ⟨Nat.le_refl j, by omega⟩, if_pos rfl, Nat.sub_self]
    cases b <;> decide
  · rw [if_neg (by omega), if_neg h]

/-! Dispatch lemmas connecting the field enumerations to the accessors and
setters of the source. -/

theorem readStatus_raw (f : StatusField) (s : StatusRegister) :
    readStatus f s = s.raw.testBit (statusBitPos f) := by
  cases f <;> rfl

theorem readCmd_raw (f : CmdField) (c : CommandRegister) :
    readCmd f c = c.raw.testBit (cmdBitPos f) := by
  cases f <;> rfl

theorem applySetter_def (b : CommandRegisterBuilder) (p : CmdField × Bool) :
    applySetter b p = ⟨set_bit 16 b.raw (cmdBitPos p.1) p.2⟩ := by
  obtain ⟨f, v⟩ := p
  cases f <;> rfl

theorem cmdBitPos_lt (f : CmdField) : cmdBitPos f < 16 := by
  cases f <;> decide

theorem cmdBitPos_inj (f g : CmdField) (h : f ≠ g) : cmdBitPos f ≠ cmdBitPos g := by
  cases f <;> cases g <;> simp_all [cmdBitPos]

theorem set_bit_comm (w x i j : Nat) (u v : Bool) (hi : i < w) (hj : j < w)
    (hij : i ≠ j) :
    set_bit w (set_bit w x i u) j v = set_bit w (set_bit w x j v) i u := by
  apply Nat.eq_of_testBit_eq
  intro k
  simp only [set_bit_testBit w _ j k v hj, set_bit_testBit w _ i k u hi]
  by_cases hkj : k = j <;> by_cases hki : k = i
  · omega
  · subst hkj
    simp [hki, hj]
  · subst hki
    simp [hkj, hi]
  · simp [hki, hkj, Bool.and_assoc, Bool.and_comm]

theorem runSetters_nil (b : CommandRegisterBuilder) : runSetters b [] = b := rfl

theorem runSetters_cons (b : CommandRegisterBuilder) (p : CmdField × Bool)
    (L : List (CmdField × Bool)) :
    runSetters b (p :: L) = runSetters (applySetter b p) L := rfl

/-- If a field is never set in `L`, running `L` leaves its bit unchanged. -/
theorem runSetters_testBit_of_lastSet_none (f : CmdField) :
    ∀ (L : List (CmdField × Bool)) (b : CommandRegisterBuilder),
      lastSet f L = none →
      (runSetters b L).raw.testBit (cmdBitPos f) = b.raw.testBit (cmdBitPos f) := by
  intro L
  induction L with
  | nil => intro b _; rfl
  | cons p L ih =>
    intro b h
    unfold lastSet at h
    rcases hL : lastSet f L with _ | w
    · rw [hL] at h
      by_cases hp : p.1 = f
      · simp [hp] at h
      · rw [runSetters_cons, ih _ hL, applySetter_def]
        show (set_bit 16 b.raw (cmdBitPos p.1) p.2).testBit (cmdBitPos f) = _
        rw [set_bit_testBit _ _ _ _ _ (cmdBitPos_lt p.1),
          if_neg (cmdBitPos_inj f p.1 (fun e => hp e.symm)),
          decide_eq_true (cmdBitPos_lt f), Bool.true_and]
    · rw [hL] at h
      simp at h

/-! Claim theorems. -/

/-- C1: for every CommandRegister and every 32-bit image, `write_info`
overwrites exactly bits 0–6 and 8–10 of the image with the register's
corresponding bits, and leaves bit 7 and bits 11–31 (including the upper
16 Status bits) bit-for-bit unchanged. -/
theorem write_info_frame (c : CommandRegister) (s i : Nat) (hi : i ≤ 31) :
    (c.write_info s).testBit i =
      if i ≤ 6 ∨ (8 ≤ i ∧ i ≤ 10) then c.raw.testBit i else s.testBit i := by
  show (set_bits 32 (set_bits 32 s 8 3 (get_bits c.raw 8 3)) 0 7
      (get_bits c.raw 0 7)).testBit i = _
  rw [set_bits_testBit 32 _ 0 7 _ i (by omega) (get_bits_lt _ _ _),
    set_bits_testBit 32 s 8 3 _ i (by omega) (get_bits_lt _ _ _),
    get_bits_testBit, get_bits_testBit]
  interval_cases i <;> simp

/-- Witness for C1: a concrete register, image and untouched bit position. -/
theorem write_info_frame_witness :
    ((CommandRegister.from_u16 999).write_info 3000000000).testBit 20 =
      (if (20 : Nat) ≤ 6 ∨ (8 ≤ (20 : Nat) ∧ (20 : Nat) ≤ 10)
        then (CommandRegister.from_u16 999).raw.testBit 20
        else (3000000000 : Nat).testBit 20) :=
  write_info_frame (CommandRegister.from_u16 999) 3000000000 20 (by decide)

/-- C2: DevselTiming decoding maps 0 to Fast, 1 to Medium, 2 to Slow and
fails exactly on 3 among 2-bit inputs; `StatusRegister.devsel_timing`
decodes bits 9–10 accordingly and errs exactly when those bits are 3. -/
theorem devsel_timing_decode :
    DevselTiming.try_from 0 = .ok .Fast ∧
    DevselTiming.try_from 1 = .ok .Medium ∧
    DevselTiming.try_from 2 = .ok .Slow ∧
    DevselTiming.try_from 3 = .error () ∧
    (∀ v : Nat, (StatusRegister.new v).devsel_timing
        = DevselTiming.try_from (get_bits v 9 2)) ∧
    (∀ v : Nat, get_bits v 9 2 < 2 ^ 2) ∧
    (∀ v : Nat,
      ((StatusRegister.new v).devsel_timing = .error ()) ↔ get_bits v 9 2 = 3) ∧
    (∀ (v : Nat) (t : DevselTiming),
      ((StatusRegister.new v).devsel_timing = .ok t) ↔
        (get_bits v 9 2 = 0 ∧ t = .Fast) ∨ (get_bits v 9 2 = 1 ∧ t = .Medium) ∨
          (get_bits v 9 2 = 2 ∧ t = .Slow)) := by
  refine ⟨rfl, rfl, rfl, rfl, fun v => rfl, fun v => get_bits_lt v 9 2, ?_, ?_⟩
  · intro v
    have h4 : get_bits v 9 2 < 4 := by simpa using get_bits_lt v 9 2
    show DevselTiming.try_from (get_bits v 9 2) = .error () ↔ get_bits v 9 2 = 3
    rcases (by omega : get_bits v 9 2 = 0 ∨ get_bits v 9 2 = 1 ∨
        get_bits v 9 2 = 2 ∨ get_bits v 9 2 = 3) with h | h | h | h <;>
      rw [h] <;> simp [DevselTiming.try_from]
  · intro v t
    have h4 : get_bits v 9 2 < 4 := by simpa using get_bits_lt v 9 2
    show DevselTiming.try_from (get_bits v 9 2) = .ok t ↔ _
    rcases (by omega : get_bits v 9 2 = 0 ∨ get_bits v 9 2 = 1 ∨
        get_bits v 9 2 = 2 ∨ get_bits v 9 2 = 3) with h | h | h | h <;>
      rw [h] <;> cases t <;> simp [DevselTiming.try_from]

/-- C3: every single-bit StatusRegister accessor on `new v` returns exactly
bit `statusBitPos f` of `v`, and its result depends on no other bit. -/
theorem status_accessor_exact_bit :
    (∀ (f : StatusField) (v : Nat),
        readStatus f (StatusRegister.new v) = v.testBit (statusBitPos f)) ∧
    (∀ (f : StatusField) (v w : Nat),
        v.testBit (statusBitPos f) = w.testBit (statusBitPos f) →
        readStatus f (StatusRegister.new v) = readStatus f (StatusRegister.new w)) := by
  constructor
  · intro f v
    rw [readStatus_raw]
    rfl
  · intro f v w h
    rw [readStatus_raw, readStatus_raw]
    exact h

/-- Witness for C3: two values agreeing only on bit 15 give the same
parity_error_detected result. -/
theorem status_accessor_exact_bit_witness :
    readStatus .parityErrorDetected (StatusRegister.new 32768) =
      readStatus .parityErrorDetected (StatusRegister.new 40000) :=
  status_accessor_exact_bit.2 .parityErrorDetected 32768 40000 (by decide)

/-- C5: seeding a builder from a register and building with no setters
returns a register with the identical raw value and accessor outputs. -/
theorem builder_round_trip (data : Nat) :
    (CommandRegister.from_u16 data).builder.build = CommandRegister.from_u16 data ∧
    ∀ f : CmdField,
      readCmd f ((CommandRegister.from_u16 data).builder.build) =
        readCmd f (CommandRegister.from_u16 data) :=
  ⟨rfl, fun _ => rfl⟩

/-- C7: the register with raw value 0b0000011000000111 enables io space,
memory space, bus mastering, fast back-to-back and interrupt-disable, and
nothing else. -/
theorem cmd_concrete_scenario :
    (CommandRegister.from_u16 0b0000011000000111).io_space_access_enabled = true ∧
    (CommandRegister.from_u16 0b0000011000000111).memory_space_access_enabled = true ∧
    (CommandRegister.from_u16 0b0000011000000111).bus_mastering_enabled = true ∧
    (CommandRegister.from_u16 0b0000011000000111).fast_back_to_back_enabled = true ∧
    (CommandRegister.from_u16 0b0000011000000111).interrupts_disabled = true ∧
    (CommandRegister.from_u16 0b0000011000000111).serr_enabled = false ∧
    (CommandRegister.from_u16 0b0000011000000111).parity_error_response = false ∧
    (CommandRegister.from_u16 0b0000011000000111).vga_palette_snoop = false ∧
    (CommandRegister.from_u16 0b0000011000000111).memory_write_and_invalidate_enabled = false ∧
    (CommandRegister.from_u16 0b0000011000000111).monitor_special_cycles = false := by
  decide

/-- C8: the status register with raw value 0b1000001000000000 reports a
detected parity error and Medium devsel timing. -/
theorem status_concrete_scenario :
    (StatusRegister.new 0b1000001000000000).parity_error_detected = true ∧
    (StatusRegister.new 0b1000001000000000).devsel_timing = .ok .Medium := by
  exact ⟨by decide, rfl⟩

/-- C10: DevselTiming decoding is total on the whole u8 domain and returns
an error for every value greater than or equal to 3, not only for 3. -/
theorem try_from_err_above_two (v : Nat) (h : 3 ≤ v) :
    DevselTiming.try_from v = .error () := by
  obtain ⟨k, rfl⟩ : ∃ k, v = k + 3 := ⟨v - 3, by omega⟩
  rfl

/-- Witness for C10 at a concrete u8 input well above 3. -/
theorem try_from_err_above_two_witness :
    DevselTiming.try_from 200 = .error () :=
  try_from_err_above_two 200 (by decide)

/-- C4: each builder setter sets exactly its bit, leaves every other
accumulator bit unchanged, setters for distinct fields commute, and reading
back a field from the built register yields the last value set for it. -/
theorem builder_setters_correct :
    (∀ (b : CommandRegisterBuilder) (f : CmdField) (v : Bool),
        (applySetter b (f, v)).raw.testBit (cmdBitPos f) = v) ∧
    (∀ (b : CommandRegisterBuilder) (f : CmdField) (v : Bool) (i : Nat),
        b.raw < 2 ^ 16 → i ≠ cmdBitPos f →
        (applySetter b (f, v)).raw.testBit i = b.raw.testBit i) ∧
    (∀ (b : CommandRegisterBuilder) (f g : CmdField) (u v : Bool), f ≠ g →
        applySetter (applySetter b (f, u)) (g, v) =
          applySetter (applySetter b (g, v)) (f, u)) ∧
    (∀ (b : CommandRegisterBuilder) (L : List (CmdField × Bool)) (f : CmdField)
        (v : Bool),
        lastSet f L = some v → readCmd f ((runSetters b L).build) = v) := by
  have hset : ∀ (b : CommandRegisterBuilder) (f : CmdField) (v : Bool),
      (applySetter b (f, v)).raw.testBit (cmdBitPos f) = v := by
    intro b f v
    rw [applySetter_def]
    show (set_bit 16 b.raw (cmdBitPos f) v).testBit (cmdBitPos f) = v
    rw [set_bit_testBit _ _ _ _ _ (cmdBitPos_lt f), if_pos rfl]
  refine ⟨hset, ?_, ?_, ?_⟩
  · intro b f v i hb hi
    rw [applySetter_def]
    show (set_bit 16 b.raw (cmdBitPos f) v).testBit i = _
    rw [set_bit_testBit _ _ _ _ _ (cmdBitPos_lt f), if_neg hi]
    by_cases h16 : i < 16
    · rw [decide_eq_true h16, Bool.true_and]
    · rw [decide_eq_false h16, Bool.false_and, Nat.testBit_lt_two_pow
        (lt_of_lt_of_le hb (Nat.pow_le_pow_right (by norm_num) (by omega)))]
  · intro b f g u v hfg
    simp only [applySetter_def, CommandRegisterBuilder.mk.injEq]
    exact set_bit_comm 16 b.raw (cmdBitPos f) (cmdBitPos g) u v
      (cmdBitPos_lt f) (cmdBitPos_lt g) (cmdBitPos_inj f g hfg)
  · intro b L
    induction L generalizing b with
    | nil =>
      intro f v h
      exact absurd h (by simp [lastSet])
    | cons p L ih =>
      intro f v h
      obtain ⟨pf, pv⟩ := p
      rw [runSetters_cons]
      rcases hL : lastSet f L with _ | w
      · have h' : (if pf = f then some pv else none) = some v := by
          unfold lastSet at h
          rw [hL] at h
          exact h
        by_cases hp : pf = f
        · rw [if_pos hp] at h'
          injection h' with h'
          subst h' hp
          rw [readCmd_raw]
          show (runSetters (applySetter b (pf, pv)) L).raw.testBit (cmdBitPos pf) = pv
          rw [runSetters_testBit_of_lastSet_none pf L _ hL]
          exact hset b pf pv
        · rw [if_neg hp] at h'
          cases h'
      · have h' : (some w : Option Bool) = some v := by
          unfold lastSet at h
          rw [hL] at h
          exact h
        injection h' with h'
        subst h'
        exact ih _ f w hL

/-- Witness for C4: concrete instances of all four conjuncts. -/
theorem builder_setters_correct_witness :
    (applySetter CommandRegisterBuilder.default (.serr, true)).raw.testBit
        (cmdBitPos .serr) = true ∧
    (applySetter (CommandRegisterBuilder.mk 5) (.serr, true)).raw.testBit 0 =
      (CommandRegisterBuilder.mk 5).raw.testBit 0 ∧
    applySetter (applySetter CommandRegisterBuilder.default (.serr, true))
        (.busMastering, false) =
      applySetter (applySetter CommandRegisterBuilder.default (.busMastering, false))
        (.serr, true) ∧
    readCmd .ioSpaceAccess ((runSetters CommandRegisterBuilder.default
        [(.ioSpaceAccess, false), (.busMastering, true), (.ioSpaceAccess, true)]).build)
      = true :=
  ⟨builder_setters_correct.1 CommandRegisterBuilder.default .serr true,
    builder_setters_correct.2.1 (CommandRegisterBuilder.mk 5) .serr true 0
      (by decide) (by decide),
    builder_setters_correct.2.2.1 CommandRegisterBuilder.default .serr .busMastering
      true false (by decide),
    builder_setters_correct.2.2.2 CommandRegisterBuilder.default
      [(.ioSpaceAccess, false), (.busMastering, true), (.ioSpaceAccess, true)]
      .ioSpaceAccess true (by decide)⟩

/-- Setters never touch bit 7 or bits 11 and above: those bits survive any
setter sequence unchanged when they start as zero. -/
theorem runSetters_outside_zero (L : List (CmdField × Bool)) :
    ∀ (b : CommandRegisterBuilder) (i : Nat), (i = 7 ∨ 11 ≤ i) →
      b.raw.testBit i = false → (runSetters b L).raw.testBit i = false := by
  induction L with
  | nil =>
    intro b i _ hb
    exact hb
  | cons p L ih =>
    intro b i hi hb
    rw [runSetters_cons]
    refine ih _ i hi ?_
    rw [applySetter_def]
    show (set_bit 16 b.raw (cmdBitPos p.1) p.2).testBit i = false
    have hne : i ≠ cmdBitPos p.1 := by
      cases p.1 <;> simp only [cmdBitPos] <;> omega
    rw [set_bit_testBit _ _ _ _ _ (cmdBitPos_lt p.1), if_neg hne]
    by_cases h16 : i < 16
    · rw [decide_eq_true h16, Bool.true_and, hb]
    · rw [decide_eq_false h16, Bool.false_and]

/-- C6: starting from the default (all-zero) builder, every accumulator bit
outside the defined command fields (bit 7 and bits 11 and above) stays zero
after any sequence of setter calls. -/
theorem builder_untouched_bits (L : List (CmdField × Bool)) (i : Nat)
    (hi : i = 7 ∨ 11 ≤ i) :
    (runSetters CommandRegisterBuilder.default L).raw.testBit i = false :=
  runSetters_outside_zero L CommandRegisterBuilder.default i hi
    (by simp [CommandRegisterBuilder.default])

/-- Witness for C6: a concrete setter sequence leaves bit 12 zero. -/
theorem builder_untouched_bits_witness :
    (runSetters CommandRegisterBuilder.default
        [(.serr, true), (.ioSpaceAccess, true), (.interruptDisable, true)]).raw.testBit 12
      = false :=
  builder_untouched_bits
    [(.serr, true), (.ioSpaceAccess, true), (.interruptDisable, true)] 12 (by decide)

/-- C9: two raw command values agreeing on bits 0–6 and 8–10 give
observationally indistinguishable registers: all ten accessors agree and
`write_info` produces identical images from identical seeds. -/
theorem cmd_observational_eq (a b : Nat)
    (h : ∀ i, i ≤ 6 ∨ (8 ≤ i ∧ i ≤ 10) → a.testBit i = b.testBit i) :
    (∀ f : CmdField, readCmd f (CommandRegister.from_u16 a) =
        readCmd f (CommandRegister.from_u16 b)) ∧
    (∀ s : Nat, (CommandRegister.from_u16 a).write_info s =
        (CommandRegister.from_u16 b).write_info s) := by
  have h07 : get_bits a 0 7 = get_bits b 0 7 := by
    apply Nat.eq_of_testBit_eq
    intro j
    rw [get_bits_testBit, get_bits_testBit]
    by_cases hj : j < 7
    · rw [decide_eq_true hj]
      simp only [Bool.true_and]
      exact h (0 + j) (by omega)
    · rw [decide_eq_false hj]
      simp only [Bool.false_and]
  have h83 : get_bits a 8 3 = get_bits b 8 3 := by
    apply Nat.eq_of_testBit_eq
    intro j
    rw [get_bits_testBit, get_bits_testBit]
    by_cases hj : j < 3
    · rw [decide_eq_true hj]
      simp only [Bool.true_and]
      exact h (8 + j) (by omega)
    · rw [decide_eq_false hj]
      simp only [Bool.false_and]
  constructor
  · intro f
    rw [readCmd_raw, readCmd_raw]
    exact h (cmdBitPos f) (by cases f <;> decide)
  · intro s
    show set_bits 32 (set_bits 32 s 8 3 (get_bits a 8 3)) 0 7 (get_bits a 0 7) =
      set_bits 32 (set_bits 32 s 8 3 (get_bits b 8 3)) 0 7 (get_bits b 0 7)
    rw [h07, h83]

/-- Witness for C9: 1543 and 34439 differ exactly in bits 7 and 15 and are
indistinguishable through the accessors and write_info. -/
theorem cmd_observational_eq_witness :
    readCmd .serr (CommandRegister.from_u16 1543) =
      readCmd .serr (CommandRegister.from_u16 34439) ∧
    (CommandRegister.from_u16 1543).write_info 4000000000 =
      (CommandRegister.from_u16 34439).write_info 4000000000 := by
  have h := cmd_observational_eq 1543 34439 (by
    intro i hi
    have h10 : i ≤ 10 := by omega
    interval_cases i <;> first | decide | omega)
  exact ⟨h.1 .serr, h.2 4000000000⟩
